import Mathlib

/-!
Verification development for the meta-statistics aggregation engine
(`Aggregate_Meta_Stats.py`): a shallow embedding of the five metric
reducers and the summary composer, together with theorems settling the
specification claims.

Modelling conventions:
* Python floats are embedded as rationals (`ℚ`); `round(x, d)` is embedded
  as rounding to the nearest multiple of `10^(-d)` (Python uses
  round-half-to-even on floats, the embedding rounds half up; both are
  nearest-value roundings, and no claim depends on midpoint behaviour).
* A Python `dict` built by insertion is embedded as an association list in
  insertion order (`updateD` mutates the first matching key or appends a
  fresh one at the end, exactly like `defaultdict` access).
* A participant entry whose field extraction raises (e.g. a non-mapping
  element of the `participants` list) is embedded as `none` inside
  `participants`; the source wraps each match body in a single
  `try/except`, so such an entry aborts the remainder of the participant loop of that match while later matches continue.
* `matchup_data`, a doubly nested `defaultdict` whose default cell holds zero wins and games, is embedded as a total function `String → String → ℕ × ℕ`
  whose default value is `(0, 0)`.
-/

/-- Embedding of Python `round(q, d)`: round to `d` decimal digits. -/
def roundTo (d : ℕ) (q : ℚ) : ℚ :=
  ((round (q * (10 : ℚ) ^ d) : ℤ) : ℚ) / (10 : ℚ) ^ d

/-- Embedding of `round(sum(samples)/len(samples), 2) if samples else 0`,
the guarded per-minute / KDA average used throughout the reducers. -/
def avgQ (l : List ℚ) : ℚ :=
  if l = [] then 0 else roundTo 2 (l.sum / (l.length : ℚ))

/-- Performance of one player in a match (`ParticipantRecord`): every field
is optional in the source and read through `.get` with the defaults shown
in the reducers. `champion := none` models a record with no `champion`
key (the entity-stats reducer then defaults it to `"Unknown"`, the
matchup and build reducers treat it as falsy). -/
structure Participant where
  champion : Option String := none
  win : Bool := false
  kills : ℕ := 0
  deaths : ℕ := 0
  assists : ℕ := 0
  damage_dealt_champions : ℕ := 0
  total_cs : ℕ := 0
  gold_earned : ℕ := 0
  vision_score : ℕ := 0
  cs_per_min : ℚ := 0
  gold_per_min : ℚ := 0
  vision_per_min : ℚ := 0
  damage_per_min : ℚ := 0
  kda : ℚ := 0
  team_id : Option ℕ := none
  position : String := ""
  individual_position : String := ""
  items : List ℕ := []
deriving DecidableEq

/-- The four `objectives` booleans of a TeamRecord. -/
structure ObjFlags where
  first_blood : Bool := false
  first_tower : Bool := false
  first_dragon : Bool := false
  first_baron : Bool := false
deriving DecidableEq

/-- Outcome of one side in a match (`TeamRecord`): `objectives := none`
models a team entry without an `objectives` key, which the source reads
through `get` with an empty-mapping default. -/
structure TeamRecord where
  win : Bool := false
  objectives : Option ObjFlags := none
deriving DecidableEq

/-- The `team_stats` mapping, keyed by the two team colours; `none` models
an absent colour key. -/
structure TeamStats where
  blue : Option TeamRecord := none
  red : Option TeamRecord := none
deriving DecidableEq

/-- One match record. `participants := none` models a match without a
`participants` key; an inner `none` models a participant entry whose
field extraction raises. -/
structure MatchRec where
  participants : Option (List (Option Participant)) := none
  team_stats : Option TeamStats := none
deriving DecidableEq

/-- Effective role label: the `position` field, falling back to
`individual_position` when `position` is the empty (falsy) string, as
computed by the Python `or` chain in the source. -/
def effPos (p : Participant) : String :=
  if p.position = "" then p.individual_position else p.position

/-- First value bound to a key in an association list (Python dict lookup). -/
def lookupA {κ α : Type} [DecidableEq κ] (k : κ) : List (κ × α) → Option α
  | [] => none
  | (k', v) :: rest => if k' = k then some v else lookupA k rest

/-- `defaultdict` access-and-mutate: apply `f` to the value at `k`
(materialising the default `d` first if `k` is absent, in which case the
new key is appended at the end, matching dict insertion order). -/
def updateD {κ α : Type} [DecidableEq κ] (k : κ) (f : α → α) (d : α) :
    List (κ × α) → List (κ × α)
  | [] => [(k, f d)]
  | (k', v) :: rest =>
    if k' = k then (k', f v) :: rest else (k', v) :: updateD k f d rest

/-- Keys of an association list, in insertion order. -/
def keysA {κ α : Type} (l : List (κ × α)) : List κ := l.map (·.1)

/-- Per-champion running accumulator (`champion_data[champion]`). -/
structure ChampAcc where
  games : ℕ := 0
  wins : ℕ := 0
  kills : ℕ := 0
  deaths : ℕ := 0
  assists : ℕ := 0
  total_damage : ℕ := 0
  total_cs : ℕ := 0
  total_gold : ℕ := 0
  total_vision_score : ℕ := 0
  positions : List (String × ℕ) := []
  cs_per_min_samples : List ℚ := []
  gold_per_min_samples : List ℚ := []
  vision_per_min_samples : List ℚ := []
  damage_per_min_samples : List ℚ := []
  kda_samples : List ℚ := []
deriving DecidableEq

/-- Accumulate one participant into a champion accumulator (the body of the
participant loop of `aggregate_champion_stats`, after the `Unknown` skip). -/
def accP (acc : ChampAcc) (p : Participant) : ChampAcc :=
  let pos := effPos p
  { games := acc.games + 1
    wins := acc.wins + (if p.win then 1 else 0)
    kills := acc.kills + p.kills
    deaths := acc.deaths + p.deaths
    assists := acc.assists + p.assists
    total_damage := acc.total_damage + p.damage_dealt_champions
    total_cs := acc.total_cs + p.total_cs
    total_gold := acc.total_gold + p.gold_earned
    total_vision_score := acc.total_vision_score + p.vision_score
    positions := if pos = "" then acc.positions
                 else updateD pos (· + 1) 0 acc.positions
    cs_per_min_samples := acc.cs_per_min_samples ++ [p.cs_per_min]
    gold_per_min_samples := acc.gold_per_min_samples ++ [p.gold_per_min]
    vision_per_min_samples := acc.vision_per_min_samples ++ [p.vision_per_min]
    damage_per_min_samples := acc.damage_per_min_samples ++ [p.damage_per_min]
    kda_samples := acc.kda_samples ++ [p.kda] }

/-- Fold of the participant loop of `aggregate_champion_stats` over one
participant list of one match: a malformed entry (`none`) raises, the
match-level `except` catches, and the remaining participants of this
match are not processed. -/
def champPs (cd : List (String × ChampAcc)) :
    List (Option Participant) → List (String × ChampAcc)
  | [] => cd
  | none :: _ => cd
  | some p :: rest =>
    let c := p.champion.getD "Unknown"
    if c = "Unknown" then champPs cd rest
    else champPs (updateD c (fun a => accP a p) {} cd) rest

/-- One match of the fold of `aggregate_champion_stats`. -/
def champStep (cd : List (String × ChampAcc)) (m : MatchRec) :
    List (String × ChampAcc) :=
  match m.participants with
  | none => cd
  | some ps => champPs cd ps

/-- The `champion_data` accumulator after folding all matches. -/
def champData (ms : List MatchRec) : List (String × ChampAcc) :=
  ms.foldl champStep []

/-- Highest-count key of the positions counter — Python
`max` with a count key returns the first maximal key — or `"UNKNOWN"` when
the counter is empty. -/
def firstMax : List (String × ℕ) → String
  | [] => "UNKNOWN"
  | kv :: rest => (rest.foldl (fun best x => if best.2 < x.2 then x else best) kv).1

/-- Final per-champion statistics (`AggregatedEntityStats`). -/
structure ChampOut where
  games_played : ℕ
  wins : ℕ
  win_rate : ℚ
  pick_rate : ℚ
  avg_kills : ℚ
  avg_deaths : ℚ
  avg_assists : ℚ
  avg_kda : ℚ
  avg_damage : ℚ
  avg_damage_per_min : ℚ
  avg_cs : ℚ
  avg_cs_per_min : ℚ
  avg_gold_earned : ℚ
  avg_gold_per_min : ℚ
  gold_efficiency : ℚ
  avg_vision_score : ℚ
  avg_vision_per_min : ℚ
  primary_position : String
  position_flexibility : ℕ
deriving DecidableEq

/-- Per-champion finalisation of `aggregate_champion_stats` (pick rate is
filled in later, as in the source). -/
def finalizeChamp (d : ChampAcc) : ChampOut :=
  { games_played := d.games
    wins := d.wins
    win_rate := roundTo 2 ((d.wins : ℚ) / (d.games : ℚ) * 100)
    pick_rate := 0
    avg_kills := roundTo 2 ((d.kills : ℚ) / (d.games : ℚ))
    avg_deaths := roundTo 2 ((d.deaths : ℚ) / (d.games : ℚ))
    avg_assists := roundTo 2 ((d.assists : ℚ) / (d.games : ℚ))
    avg_kda := avgQ d.kda_samples
    avg_damage := roundTo 0 ((d.total_damage : ℚ) / (d.games : ℚ))
    avg_damage_per_min := avgQ d.damage_per_min_samples
    avg_cs := roundTo 1 ((d.total_cs : ℚ) / (d.games : ℚ))
    avg_cs_per_min := avgQ d.cs_per_min_samples
    avg_gold_earned := roundTo 0 ((d.total_gold : ℚ) / (d.games : ℚ))
    avg_gold_per_min := avgQ d.gold_per_min_samples
    gold_efficiency :=
      if 0 < d.total_gold then
        roundTo 2 ((d.total_damage : ℚ) / (d.total_gold : ℚ) * 1000)
      else 0
    avg_vision_score := roundTo 1 ((d.total_vision_score : ℚ) / (d.games : ℚ))
    avg_vision_per_min := avgQ d.vision_per_min_samples
    primary_position := firstMax d.positions
    position_flexibility :=
      (d.positions.filter (fun kv => (1 : ℚ) / 10 < (kv.2 : ℚ) / (d.games : ℚ))).length }

/-- `aggregated_stats` before pick rates: champions with zero games are
skipped (the guard in the source; a `defaultdict` entry always has at
least one game, so the filter is vacuous but kept verbatim). -/
def champBase (ms : List MatchRec) : List (String × ChampOut) :=
  ((champData ms).filter (fun kv => kv.2.games ≠ 0)).map
    (fun kv => (kv.1, finalizeChamp kv.2))

/-- `total_picks`: sum of `games_played` over the aggregated entities. -/
def totalPicks (base : List (String × ChampOut)) : ℕ :=
  (base.map (fun kv => kv.2.games_played)).sum

/-- Fill in the pick rate of one champion. -/
def applyPick (total : ℕ) (o : ChampOut) : ChampOut :=
  { o with pick_rate := roundTo 2 ((o.games_played : ℚ) / (total : ℚ) * 100) }

/-- The Entity Stats reducer (`aggregate_champion_stats`). -/
def aggregate_champion_stats (ms : List MatchRec) : List (String × ChampOut) :=
  let base := champBase ms
  if 0 < totalPicks base then
    base.map (fun kv => (kv.1, applyPick (totalPicks base) kv.2))
  else base

/-- Stable insertion of `x` into a descending-by-key list: `x` goes before
the first element whose key is `≤` its own. -/
def insertDesc {α β : Type} [LinearOrder β] (key : α → β) (x : α) :
    List α → List α
  | [] => [x]
  | y :: ys => if key y ≤ key x then x :: y :: ys else y :: insertDesc key x ys

/-- Embedding of Python `sorted(l, key=key, reverse=True)`: a stable
descending sort by key (equal keys keep their original order). -/
def sortDescBy {α β : Type} [LinearOrder β] (key : α → β) : List α → List α
  | [] => []
  | x :: xs => insertDesc key x (sortDescBy key xs)

/-- Per-role running accumulator (`role_data[position]`). -/
structure RoleAcc where
  games : ℕ := 0
  wins : ℕ := 0
  total_gold : ℕ := 0
  total_vision : ℕ := 0
  total_damage : ℕ := 0
  total_cs : ℕ := 0
  champions : List (String × ℕ) := []
  gold_per_min_samples : List ℚ := []
  vision_per_min_samples : List ℚ := []
deriving DecidableEq

/-- Accumulate one participant into a role accumulator (loop body of
`aggregate_role_meta`, after the empty/`Invalid` skip). -/
def accR (acc : RoleAcc) (p : Participant) : RoleAcc :=
  let c := p.champion.getD "Unknown"
  { games := acc.games + 1
    wins := acc.wins + (if p.win then 1 else 0)
    total_gold := acc.total_gold + p.gold_earned
    total_vision := acc.total_vision + p.vision_score
    total_damage := acc.total_damage + p.damage_dealt_champions
    total_cs := acc.total_cs + p.total_cs
    champions := if c = "Unknown" then acc.champions
                 else updateD c (· + 1) 0 acc.champions
    gold_per_min_samples := acc.gold_per_min_samples ++ [p.gold_per_min]
    vision_per_min_samples := acc.vision_per_min_samples ++ [p.vision_per_min] }

/-- Participant loop of `aggregate_role_meta` over one match (same
match-level exception behaviour as the entity reducer). -/
def rolePs (rd : List (String × RoleAcc)) :
    List (Option Participant) → List (String × RoleAcc)
  | [] => rd
  | none :: _ => rd
  | some p :: rest =>
    let pos := effPos p
    if pos = "" ∨ pos = "Invalid" then rolePs rd rest
    else rolePs (updateD pos (fun a => accR a p) {} rd) rest

/-- One match of the fold of `aggregate_role_meta`. -/
def roleStep (rd : List (String × RoleAcc)) (m : MatchRec) :
    List (String × RoleAcc) :=
  match m.participants with
  | none => rd
  | some ps => rolePs rd ps

/-- The `role_data` accumulator after folding all matches. -/
def roleData (ms : List MatchRec) : List (String × RoleAcc) :=
  ms.foldl roleStep []

/-- An entry of the per-role `top_champions` list. -/
structure RoleTopChamp where
  champion : String
  games : ℕ
  pick_rate_in_role : ℚ
deriving DecidableEq

/-- Final per-role statistics. -/
structure RoleOut where
  games_played : ℕ
  win_rate : ℚ
  avg_gold : ℚ
  avg_gold_per_min : ℚ
  avg_vision_score : ℚ
  avg_vision_per_min : ℚ
  avg_damage : ℚ
  avg_cs : ℚ
  top_champions : List RoleTopChamp
deriving DecidableEq

/-- Per-role finalisation of `aggregate_role_meta`. -/
def finalizeRole (d : RoleAcc) : RoleOut :=
  let top := (sortDescBy (fun kv => kv.2) d.champions).take 10
  { games_played := d.games
    win_rate := roundTo 2 ((d.wins : ℚ) / (d.games : ℚ) * 100)
    avg_gold := roundTo 0 ((d.total_gold : ℚ) / (d.games : ℚ))
    avg_gold_per_min := avgQ d.gold_per_min_samples
    avg_vision_score := roundTo 1 ((d.total_vision : ℚ) / (d.games : ℚ))
    avg_vision_per_min := avgQ d.vision_per_min_samples
    avg_damage := roundTo 0 ((d.total_damage : ℚ) / (d.games : ℚ))
    avg_cs := roundTo 1 ((d.total_cs : ℚ) / (d.games : ℚ))
    top_champions := top.map (fun kv =>
      { champion := kv.1, games := kv.2
        pick_rate_in_role := roundTo 2 ((kv.2 : ℚ) / (d.games : ℚ) * 100) }) }

/-- The Role Stats reducer (`aggregate_role_meta`). -/
def aggregate_role_meta (ms : List MatchRec) : List (String × RoleOut) :=
  ((roleData ms).filter (fun kv => kv.2.games ≠ 0)).map
    (fun kv => (kv.1, finalizeRole kv.2))

/-- Build identity used by `aggregate_item_builds`:
`tuple(sorted(items))`, the item multiset normalised by ascending sort. -/
def buildKey (items : List ℕ) : List ℕ := items.insertionSort (· ≤ ·)

/-- Participant loop of `aggregate_item_builds` over one match. The nested
counter maps a champion to a counter of normalised builds. -/
def buildPs (cd : List (String × List (List ℕ × ℕ))) :
    List (Option Participant) → List (String × List (List ℕ × ℕ))
  | [] => cd
  | none :: _ => cd
  | some p :: rest =>
    let c := p.champion.getD ""
    if c = "" ∨ p.items = [] then buildPs cd rest
    else buildPs (updateD c (updateD (buildKey p.items) (· + 1) 0) [] cd) rest

/-- One match of the fold of `aggregate_item_builds`. -/
def buildStep (cd : List (String × List (List ℕ × ℕ))) (m : MatchRec) :
    List (String × List (List ℕ × ℕ)) :=
  match m.participants with
  | none => cd
  | some ps => buildPs cd ps

/-- The `champion_items` accumulator after folding all matches. -/
def buildData (ms : List MatchRec) : List (String × List (List ℕ × ℕ)) :=
  ms.foldl buildStep []

/-- One entry of the per-champion `top_builds` list. -/
structure BuildEntry where
  items : List ℕ
  games : ℕ
  pick_rate : ℚ
deriving DecidableEq

/-- Final per-champion build statistics. -/
structure BuildOut where
  total_games : ℕ
  top_builds : List BuildEntry
deriving DecidableEq

/-- Per-champion finalisation of `aggregate_item_builds`. -/
def finalizeBuild (builds : List (List ℕ × ℕ)) : BuildOut :=
  let total := (builds.map (fun kv => kv.2)).sum
  let top := (sortDescBy (fun kv => kv.2) builds).take 5
  { total_games := total
    top_builds := top.map (fun kv =>
      { items := kv.1, games := kv.2
        pick_rate := roundTo 2 ((kv.2 : ℚ) / (total : ℚ) * 100) }) }

/-- The Build Stats reducer (`aggregate_item_builds`). -/
def aggregate_item_builds (ms : List MatchRec) : List (String × BuildOut) :=
  ((buildData ms).filter
      (fun kv => (kv.2.map (fun bc => bc.2)).sum ≠ 0)).map
    (fun kv => (kv.1, finalizeBuild kv.2))

/-- One `(team, role)` slot of `team_positions`. -/
structure Slot where
  champion : String
  win : Bool
deriving DecidableEq

/-- Per-team role → occupant mapping, as a total function with default
absence (embedding the per-team dict of `team_positions`). -/
def TeamPos : Type := String → Option Slot

/-- The grouping loop of `aggregate_matchups`: build the `(team, role)`
slot maps for teams 100 and 200. Later participants overwrite earlier
occupants of the same slot. A malformed participant entry (`none`) or a
truthy team identifier other than 100/200 (a `KeyError` in the source)
raises, so the whole match contributes nothing. -/
def buildTP : TeamPos → TeamPos → List (Option Participant) →
    Option (TeamPos × TeamPos)
  | t1, t2, [] => some (t1, t2)
  | _, _, none :: _ => none
  | t1, t2, some p :: rest =>
    let tid := p.team_id.getD 0
    let pos := effPos p
    let c := p.champion.getD ""
    if tid = 0 ∨ pos = "" ∨ pos = "Invalid" ∨ c = "" then buildTP t1 t2 rest
    else if tid = 100 then
      buildTP (fun r => if r = pos then some ⟨c, p.win⟩ else t1 r) t2 rest
    else if tid = 200 then
      buildTP t1 (fun r => if r = pos then some ⟨c, p.win⟩ else t2 r) rest
    else none

/-- The five canonical role labels of the matchup tally loop. -/
def canonicalRoles : List String := ["TOP", "JUNGLE", "MIDDLE", "BOTTOM", "UTILITY"]

/-- The `matchup_data` nested counter, embedded as a total function with
default `(games, wins) = (0, 0)`; the pair is `(games, wins)`. -/
def MuMap : Type := String → String → ℕ × ℕ

/-- One matchup observation: both directions get a game, the winning side
a win (`matchup_data[champ1][champ2]` and `matchup_data[champ2][champ1]`).
When `c1 = c2` (a mirror matchup) the single diagonal cell receives both
game increments and exactly one win increment. -/
def bumpMu (c1 c2 : String) (w1 : Bool) (md : MuMap) : MuMap :=
  fun a b =>
    ((md a b).1 + (if a = c1 ∧ b = c2 then 1 else 0)
               + (if a = c2 ∧ b = c1 then 1 else 0),
     (md a b).2 + (if w1 = true ∧ a = c1 ∧ b = c2 then 1 else 0)
               + (if w1 = false ∧ a = c2 ∧ b = c1 then 1 else 0))

/-- Tally one canonical role: an observation is recorded only when both
teams have an occupant for the role. -/
def tallyRole (tp : TeamPos × TeamPos) (md : MuMap) (pos : String) : MuMap :=
  match tp.1 pos, tp.2 pos with
  | some s1, some s2 => bumpMu s1.champion s2.champion s1.win md
  | _, _ => md

/-- One match of the fold of `aggregate_matchups`. -/
def matchupStep (md : MuMap) (m : MatchRec) : MuMap :=
  match m.participants with
  | none => md
  | some ps =>
    match buildTP (fun _ => none) (fun _ => none) ps with
    | none => md
    | some tp => canonicalRoles.foldl (tallyRole tp) md

/-- The raw `matchup_data` counts after folding all matches. -/
def rawMatchups (ms : List MatchRec) : MuMap :=
  ms.foldl matchupStep (fun _ _ => (0, 0))

/-- One significant matchup entry. -/
structure MatchupOut where
  games : ℕ
  wins : ℕ
  win_rate : ℚ
deriving DecidableEq

/-- The Matchup Stats reducer (`aggregate_matchups`), as a membership
function: `(a, b)` is a key path of the nested `significant_matchups`
dict exactly when its raw game count reaches the fixed floor of 3 (a cell
never touched has 0 games and is equally absent). -/
def aggregate_matchups (ms : List MatchRec) (a b : String) : Option MatchupOut :=
  let v := rawMatchups ms a b
  if 3 ≤ v.1 then
    some { games := v.1, wins := v.2
           win_rate := roundTo 2 ((v.2 : ℚ) / (v.1 : ℚ) * 100) }
  else none

/-- Raw tally for one objective. -/
structure ObjCount where
  wins : ℕ := 0
  games : ℕ := 0
deriving DecidableEq

/-- The `objective_stats` table with its four fixed keys. -/
structure ObjTable where
  first_blood : ObjCount := {}
  first_tower : ObjCount := {}
  first_dragon : ObjCount := {}
  first_baron : ObjCount := {}
deriving DecidableEq

/-- Count one team towards one objective when its flag is set. -/
def bumpObj (won : Bool) (flag : Bool) (c : ObjCount) : ObjCount :=
  if flag then { wins := c.wins + (if won then 1 else 0), games := c.games + 1 }
  else c

/-- Count the objectives of one team (`objectives` defaults to the empty
mapping, i.e. all flags falsy). -/
def objTeam (t : TeamRecord) (tab : ObjTable) : ObjTable :=
  let fl := t.objectives.getD {}
  { first_blood := bumpObj t.win fl.first_blood tab.first_blood
    first_tower := bumpObj t.win fl.first_tower tab.first_tower
    first_dragon := bumpObj t.win fl.first_dragon tab.first_dragon
    first_baron := bumpObj t.win fl.first_baron tab.first_baron }

/-- One match of the fold of `aggregate_objective_correlations`: blue is
processed before red; a match without `team_stats` contributes nothing. -/
def objStep (tab : ObjTable) (m : MatchRec) : ObjTable :=
  match m.team_stats with
  | none => tab
  | some ts =>
    let tab1 := match ts.blue with
      | none => tab
      | some t => objTeam t tab
    match ts.red with
    | none => tab1
    | some t => objTeam t tab1

/-- The raw objective tallies after folding all matches. -/
def objData (ms : List MatchRec) : ObjTable :=
  ms.foldl objStep {}

/-- One finalised objective entry. -/
structure ObjOut where
  wins : ℕ
  games : ℕ
  win_rate : ℚ
deriving DecidableEq

/-- Finalisation of one objective: the win rate is a guarded zero when no
game was observed. -/
def finalizeObj (c : ObjCount) : ObjOut :=
  { wins := c.wins, games := c.games
    win_rate := if 0 < c.games then roundTo 2 ((c.wins : ℚ) / (c.games : ℚ) * 100)
                else 0 }

/-- The Objective Correlation reducer (`aggregate_objective_correlations`):
its output always carries the four fixed keys, in their initialisation
order. -/
def aggregate_objective_correlations (ms : List MatchRec) : List (String × ObjOut) :=
  let t := objData ms
  [("first_blood", finalizeObj t.first_blood),
   ("first_tower", finalizeObj t.first_tower),
   ("first_dragon", finalizeObj t.first_dragon),
   ("first_baron", finalizeObj t.first_baron)]

/-- `assess_reliability` of `create_meta_summary`. -/
def assess_reliability (games : ℕ) : String :=
  if 300 ≤ games then "High"
  else if 150 ≤ games then "Medium"
  else if 50 ≤ games then "Low"
  else "Very Low"

/-- One entry of the win-rate top list of the summary. -/
structure WinRateEntry where
  rank : ℕ
  champion : String
  win_rate : ℚ
  pick_rate : ℚ
  avg_kda : ℚ
  primary_position : String
deriving DecidableEq

/-- One entry of the pick-rate top list of the summary. -/
structure PickRateEntry where
  rank : ℕ
  champion : String
  pick_rate : ℚ
  win_rate : ℚ
  games : ℕ
deriving DecidableEq

/-- One entry of the gold-efficiency top list of the summary. -/
structure GoldEffEntry where
  rank : ℕ
  champion : String
  gold_efficiency : ℚ
  avg_gold_per_min : ℚ
  avg_damage : ℚ
  primary_position : String
deriving DecidableEq

/-- One entry of the vision top list of the summary. -/
structure VisionEntry where
  rank : ℕ
  champion : String
  avg_vision_per_min : ℚ
  avg_vision_score : ℚ
  primary_position : String
deriving DecidableEq

/-- Economy digest of one role in the summary. -/
structure RoleEconomy where
  avg_gold_per_min : ℚ
  avg_vision_per_min : ℚ
  win_rate : ℚ
deriving DecidableEq

/-- The executive summary document. -/
structure MetaSummary where
  patch : String
  total_matches_analyzed : ℕ
  champions_with_data : ℕ
  data_collection_date : String
  reliability_assessment : String
  top_10_by_win_rate : List WinRateEntry
  top_10_by_pick_rate : List PickRateEntry
  top_10_gold_efficient : List GoldEffEntry
  top_10_vision_control : List VisionEntry
  role_economy : List (String × RoleEconomy)
  objective_importance : List (String × ObjOut)
  data_quality_notes : List String
deriving DecidableEq

/-- 1-indexed rank assignment by list position (`enumerate` with `i + 1`). -/
def withRanks {α β : Type} (f : ℕ → α → β) (l : List α) : List β :=
  l.enum.map (fun ia => f (ia.1 + 1) ia.2)

/-- The Summary Composer (`create_meta_summary`). The wall-clock timestamp
`datetime.now().isoformat()` is passed as the explicit argument `now`. -/
def create_meta_summary (champion_stats : List (String × ChampOut))
    (role_stats : List (String × RoleOut))
    (objective_stats : List (String × ObjOut))
    (total_matches : ℕ) (now : String) : MetaSummary :=
  let eligible := champion_stats.filter (fun kv => 5 ≤ kv.2.games_played)
  let top_wr := (sortDescBy (fun kv => kv.2.win_rate) eligible).take 10
  let top_pr := (sortDescBy (fun kv => kv.2.pick_rate) champion_stats).take 10
  let top_ge := (sortDescBy (fun kv => kv.2.gold_efficiency) eligible).take 10
  let top_vi := (sortDescBy (fun kv => kv.2.avg_vision_per_min) eligible).take 10
  { patch := ""
    total_matches_analyzed := total_matches
    champions_with_data := champion_stats.length
    data_collection_date := now
    reliability_assessment := assess_reliability total_matches
    top_10_by_win_rate := withRanks (fun r kv =>
      { rank := r, champion := kv.1, win_rate := kv.2.win_rate
        pick_rate := kv.2.pick_rate, avg_kda := kv.2.avg_kda
        primary_position := kv.2.primary_position }) top_wr
    top_10_by_pick_rate := withRanks (fun r kv =>
      { rank := r, champion := kv.1, pick_rate := kv.2.pick_rate
        win_rate := kv.2.win_rate, games := kv.2.games_played }) top_pr
    top_10_gold_efficient := withRanks (fun r kv =>
      { rank := r, champion := kv.1, gold_efficiency := kv.2.gold_efficiency
        avg_gold_per_min := kv.2.avg_gold_per_min, avg_damage := kv.2.avg_damage
        primary_position := kv.2.primary_position }) top_ge
    top_10_vision_control := withRanks (fun r kv =>
      { rank := r, champion := kv.1, avg_vision_per_min := kv.2.avg_vision_per_min
        avg_vision_score := kv.2.avg_vision_score
        primary_position := kv.2.primary_position }) top_vi
    role_economy := role_stats.map (fun kv =>
      (kv.1, { avg_gold_per_min := kv.2.avg_gold_per_min
               avg_vision_per_min := kv.2.avg_vision_per_min
               win_rate := kv.2.win_rate }))
    objective_importance := objective_stats
    data_quality_notes :=
      ["Sample size: " ++ toString total_matches ++ " matches - "
         ++ assess_reliability total_matches ++ " reliability",
       if 500 ≤ total_matches then "Sample size is sufficient for reliable analysis"
       else "Recommended minimum: 500 matches",
       "Current data covers " ++ toString champion_stats.length
         ++ " unique champions"] }

/-- The six per-run artifacts of the aggregation core. -/
structure RunOutputs where
  champion_stats : List (String × ChampOut)
  role_meta : List (String × RoleOut)
  item_builds : List (String × BuildOut)
  matchup_data : String → String → Option MatchupOut
  objective_correlations : List (String × ObjOut)
  meta_summary : MetaSummary

/-- One invocation of the aggregation core (`aggregate_match_data` after
loading): the five reducers over the same record snapshot, then the
summary with `patch` filled in; `now` is the wall-clock timestamp of the run. -/
def runAggregation (ms : List MatchRec) (patch now : String) : RunOutputs :=
  let cs := aggregate_champion_stats ms
  let rs := aggregate_role_meta ms
  let ob := aggregate_objective_correlations ms
  { champion_stats := cs
    role_meta := rs
    item_builds := aggregate_item_builds ms
    matchup_data := aggregate_matchups ms
    objective_correlations := ob
    meta_summary := { create_meta_summary cs rs ob ms.length now with patch := patch } }

/-- Number of participant records in the participant list of one match that the
entity reducer accumulates into champion `c`: the count stops at the first
malformed entry, mirroring the abort semantics of `champPs`. -/
def contribP (c : String) : List (Option Participant) → ℕ
  | [] => 0
  | none :: _ => 0
  | some p :: rest =>
    (if p.champion.getD "Unknown" = c ∧ p.champion.getD "Unknown" ≠ "Unknown"
     then 1 else 0) + contribP c rest

/-- Number of participant records contributing to champion `c` across the
whole corpus. -/
def contribCount (ms : List MatchRec) (c : String) : ℕ :=
  (ms.map (fun m =>
    match m.participants with
    | none => 0
    | some ps => contribP c ps)).sum

/-- Whether one canonical role of one match is a mirror observation for
champion `A` (both teams field `A` in that role). -/
def mirrorRoleCount (tp : TeamPos × TeamPos) (A : String) (pos : String) : ℕ :=
  match tp.1 pos, tp.2 pos with
  | some s1, some s2 => if s1.champion = A ∧ s2.champion = A then 1 else 0
  | _, _ => 0

/-- Number of mirror observations for champion `A` in one match (over the
five canonical roles, for a match whose grouping loop succeeds). -/
def mirrorMatchCount (m : MatchRec) (A : String) : ℕ :=
  match m.participants with
  | none => 0
  | some ps =>
    match buildTP (fun _ => none) (fun _ => none) ps with
    | none => 0
    | some tp => (canonicalRoles.map (mirrorRoleCount tp A)).sum

/-- Number of mirror observations for champion `A` across the corpus. -/
def mirrorCount (ms : List MatchRec) (A : String) : ℕ :=
  (ms.map (fun m => mirrorMatchCount m A)).sum

/-- Erase the wall-clock timestamp of the summary of a run (for comparing two
runs up to their timestamps). -/
def eraseDate (r : RunOutputs) : RunOutputs :=
  { r with meta_summary := { r.meta_summary with data_collection_date := "" } }

/-- Symmetry invariant of the raw matchup counts: off-diagonal cells come
in pairs with equal games and complementary wins. -/
def SymInv (md : MuMap) : Prop :=
  ∀ A B, A ≠ B →
    (md A B).1 = (md B A).1 ∧ (md A B).2 + (md B A).2 = (md A B).1

def asheP1 : Participant :=
  { champion := some "Ashe", win := true, position := "BOTTOM", cs_per_min := 7 }

def asheP2 : Participant :=
  { champion := some "Ashe", position := "BOTTOM", cs_per_min := 9 }

def asheMs : List MatchRec :=
  [{ participants := some [some asheP1] }, { participants := some [some asheP2] }]

def c3PA : Participant := { champion := some "Jinx" }

def c3PB : Participant := { champion := some "Vi" }

def c3M : MatchRec := { participants := some [some c3PA, none, some c3PB] }

def c7P : Participant := { champion := some "Shen", position := "Invalid" }

def c7Ms : List MatchRec := [{ participants := some [some c7P] }]

def c1BadMs : List MatchRec := [{ participants := none }]

def c1P : Participant := { champion := some "Pyke" }

def c1Ms : List MatchRec := [{ participants := some [some c1P] }]

def c2P1 (w : Bool) : Participant :=
  { champion := some "Aatrox", team_id := some 100, win := w, position := "TOP" }

def c2P2 (w : Bool) : Participant :=
  { champion := some "Darius", team_id := some 200, win := w, position := "TOP" }

def c2Match (w : Bool) : MatchRec :=
  { participants := some [some (c2P1 w), some (c2P2 (!w))] }

def c2Ms : List MatchRec := [c2Match true, c2Match true, c2Match false]

def c5P : Participant := { champion := some "Sona" }

def c5Ms : List MatchRec := [{ participants := some [some c5P] }]

def c6P : Participant := { champion := some "Ahri", win := true }

def c6Ms : List MatchRec := [{ participants := some [some c6P] }]

def c10P1 : Participant :=
  { champion := some "Sett", team_id := some 100, win := true, position := "TOP" }

def c10P2 : Participant :=
  { champion := some "Sett", team_id := some 200, win := false, position := "TOP" }

def c10Ms : List MatchRec :=
  List.replicate 3 { participants := some [some c10P1, some c10P2] }

theorem foldl_inv {α σ : Type} {P : σ → Prop} {step : σ → α → σ}
    (hstep : ∀ s a, P s → P (step s a)) :
    ∀ (l : List α) (s : σ), P s → P (l.foldl step s)
  | [], _, hs => hs
  | a :: l, s, hs => foldl_inv hstep l (step s a) (hstep s a hs)

theorem lookupA_updateD_self {κ α : Type} [DecidableEq κ] (k : κ) (f : α → α)
    (d : α) : ∀ l : List (κ × α),
    lookupA k (updateD k f d l) = some (f ((lookupA k l).getD d))
  | [] => by simp [lookupA, updateD]
  | (k', v) :: rest => by
    by_cases h : k' = k
    · subst h; simp [lookupA, updateD]
    · simp [lookupA, updateD, h, lookupA_updateD_self k f d rest]

theorem lookupA_updateD_ne {κ α : Type} [DecidableEq κ] {k k' : κ}
    (hne : k' ≠ k) (f : α → α) (d : α) : ∀ l : List (κ × α),
    lookupA k (updateD k' f d l) = lookupA k l
  | [] => by simp [lookupA, updateD, hne]
  | (k'', v) :: rest => by
    by_cases h : k'' = k'
    · subst h; simp [lookupA, updateD, hne]
    · simp only [updateD, if_neg h, lookupA]
      exact if_congr Iff.rfl rfl (lookupA_updateD_ne hne f d rest)

theorem updateD_forall {κ α : Type} [DecidableEq κ] {P : α → Prop} {k : κ}
    {f : α → α} {d : α} (hf : ∀ v, P v → P (f v)) (hd : P (f d)) :
    ∀ {l : List (κ × α)}, (∀ kv ∈ l, P kv.2) → ∀ kv ∈ updateD k f d l, P kv.2
  | [], _, kv, hkv => by
    simp [updateD] at hkv; subst hkv; exact hd
  | (k', v) :: rest, hl, kv, hkv => by
    simp only [updateD] at hkv
    split at hkv
    · rcases List.mem_cons.1 hkv with h | h
      · subst h; exact hf v (hl (k', v) (List.mem_cons_self _ _))
      · exact hl kv (List.mem_cons_of_mem _ h)
    · rcases List.mem_cons.1 hkv with h | h
      · subst h; exact hl (k', v) (List.mem_cons_self _ _)
      · exact updateD_forall hf hd (fun x hx => hl x (List.mem_cons_of_mem _ hx)) kv h

theorem keysA_updateD_sub {κ α : Type} [DecidableEq κ] (k : κ) (f : α → α)
    (d : α) : ∀ (l : List (κ × α)) (x : κ),
    x ∈ keysA (updateD k f d l) → x = k ∨ x ∈ keysA l
  | [], x, hx => by simpa [updateD, keysA] using hx
  | (k', v) :: rest, x, hx => by
    simp only [updateD] at hx
    split at hx
    · simp only [keysA, List.map_cons, List.mem_cons] at hx ⊢
      exact Or.inr hx
    · simp only [keysA, List.map_cons, List.mem_cons] at hx ⊢
      rcases hx with h | h
      · exact Or.inr (Or.inl h)
      · rcases keysA_updateD_sub k f d rest x h with h2 | h2
        · exact Or.inl h2
        · exact Or.inr (Or.inr h2)

theorem nodup_keysA_updateD {κ α : Type} [DecidableEq κ] (k : κ) (f : α → α)
    (d : α) : ∀ {l : List (κ × α)}, (keysA l).Nodup →
    (keysA (updateD k f d l)).Nodup
  | [], _ => by simp [updateD, keysA]
  | (k', v) :: rest, hl => by
    simp only [keysA, List.map_cons, List.nodup_cons] at hl
    simp only [updateD]
    split
    · simp only [keysA, List.map_cons, List.nodup_cons]
      exact ⟨hl.1, hl.2⟩
    · rename_i hk
      simp only [keysA, List.map_cons, List.nodup_cons]
      refine ⟨fun hmem => ?_, nodup_keysA_updateD k f d hl.2⟩
      rcases keysA_updateD_sub k f d rest k' hmem with h | h
      · exact hk h
      · exact hl.1 h

theorem lookupA_eq_none_of_not_mem {κ α : Type} [DecidableEq κ] {k : κ} :
    ∀ {l : List (κ × α)}, k ∉ keysA l → lookupA k l = none
  | [], _ => rfl
  | (k', v) :: rest, h => by
    simp only [keysA, List.map_cons, List.mem_cons, not_or] at h
    simp [lookupA, Ne.symm h.1, lookupA_eq_none_of_not_mem h.2]

theorem mem_of_lookupA_eq_some {κ α : Type} [DecidableEq κ] {k : κ} {v : α} :
    ∀ {l : List (κ × α)}, lookupA k l = some v → (k, v) ∈ l
  | [], h => by simp [lookupA] at h
  | (k', v') :: rest, h => by
    by_cases hk : k' = k
    · subst hk
      have h2 : v' = v := by simpa [lookupA] using h
      subst h2; exact List.mem_cons_self _ _
    · simp only [lookupA, if_neg hk] at h
      exact List.mem_cons_of_mem _ (mem_of_lookupA_eq_some h)

theorem lookupA_map_val {κ α β : Type} [DecidableEq κ] (k : κ) (f : α → β) :
    ∀ l : List (κ × α),
    lookupA k (l.map (fun kv => (kv.1, f kv.2))) = (lookupA k l).map f
  | [] => rfl
  | (k', v) :: rest => by
    by_cases h : k' = k
    · subst h; simp [lookupA]
    · simp [lookupA, h, lookupA_map_val k f rest]

theorem keysA_filter_sub {κ α : Type} (p : κ × α → Bool) (l : List (κ × α)) :
    ∀ x, x ∈ keysA (l.filter p) → x ∈ keysA l := by
  intro x hx
  simp only [keysA, List.mem_map] at hx ⊢
  rcases hx with ⟨kv, hkv, hx⟩
  exact ⟨kv, (List.mem_filter.1 hkv).1, hx⟩

theorem lookupA_filter_val {κ α : Type} [DecidableEq κ] (k : κ) (p : α → Bool) :
    ∀ {l : List (κ × α)}, (keysA l).Nodup →
    lookupA k (l.filter (fun kv => p kv.2)) =
      (lookupA k l).bind (fun v => if p v then some v else none)
  | [], _ => rfl
  | (k', v) :: rest, hnd => by
    simp only [keysA, List.map_cons, List.nodup_cons] at hnd
    by_cases hk : k' = k
    · subst hk
      by_cases hp : p v
      · simp [List.filter_cons, lookupA, hp]
      · have hnone : lookupA k' (List.filter (fun kv => p kv.2) rest) = none :=
          lookupA_eq_none_of_not_mem
            (fun hm => hnd.1 (keysA_filter_sub _ rest k' hm))
        simp [List.filter_cons, hp, lookupA, hnone]
    · by_cases hp : p v
      · simp [List.filter_cons, hp, lookupA, hk, lookupA_filter_val k p hnd.2]
      · simp [List.filter_cons, hp, lookupA, hk, lookupA_filter_val k p hnd.2]

theorem champPs_games (c : String) :
    ∀ (ps : List (Option Participant)) (cd : List (String × ChampAcc)),
    ((lookupA c (champPs cd ps)).getD {}).games =
      ((lookupA c cd).getD {}).games + contribP c ps
  | [], cd => by simp [champPs, contribP]
  | none :: rest, cd => by simp [champPs, contribP]
  | some p :: rest, cd => by
    simp only [champPs, contribP]
    by_cases hu : p.champion.getD "Unknown" = "Unknown"
    · rw [if_pos hu, champPs_games c rest cd,
        if_neg (by simp [hu] : ¬(p.champion.getD "Unknown" = c ∧
          p.champion.getD "Unknown" ≠ "Unknown"))]
      omega
    · rw [if_neg hu, champPs_games c rest _]
      by_cases hc : p.champion.getD "Unknown" = c
      · subst hc
        rw [lookupA_updateD_self _ (fun a => accP a p) {} cd]
        rw [if_pos ⟨rfl, hu⟩]
        simp only [Option.getD_some, accP]
        omega
      · rw [lookupA_updateD_ne hc (fun a => accP a p) {} cd]
        rw [if_neg (by tauto : ¬(p.champion.getD "Unknown" = c ∧
          p.champion.getD "Unknown" ≠ "Unknown"))]
        omega

theorem champStep_games (c : String) (cd : List (String × ChampAcc))
    (m : MatchRec) :
    ((lookupA c (champStep cd m)).getD {}).games =
      ((lookupA c cd).getD {}).games +
        (match m.participants with
         | none => 0
         | some ps => contribP c ps) := by
  cases h : m.participants <;> simp [champStep, h, champPs_games]

theorem foldl_champStep_games (c : String) :
    ∀ (ms : List MatchRec) (cd : List (String × ChampAcc)),
    ((lookupA c (ms.foldl champStep cd)).getD {}).games =
      ((lookupA c cd).getD {}).games +
        (ms.map (fun m =>
          match m.participants with
          | none => 0
          | some ps => contribP c ps)).sum
  | [], cd => by simp
  | m :: ms, cd => by
    simp only [List.foldl_cons, List.map_cons, List.sum_cons]
    rw [foldl_champStep_games c ms (champStep cd m), champStep_games c cd m]
    omega

theorem champData_games (ms : List MatchRec) (c : String) :
    ((lookupA c (champData ms)).getD {}).games = contribCount ms c := by
  have h := foldl_champStep_games c ms []
  simpa [champData, contribCount, lookupA] using h

theorem champPs_nodup :
    ∀ (ps : List (Option Participant)) (cd : List (String × ChampAcc)),
    (keysA cd).Nodup → (keysA (champPs cd ps)).Nodup
  | [], _, h => h
  | none :: _, _, h => h
  | some p :: rest, cd, h => by
    simp only [champPs]
    split
    · exact champPs_nodup rest cd h
    · exact champPs_nodup rest _ (nodup_keysA_updateD _ _ _ h)

theorem champData_keys_nodup (ms : List MatchRec) :
    (keysA (champData ms)).Nodup := by
  refine @foldl_inv MatchRec _ (fun cd => (keysA cd).Nodup) champStep
    ?_ ms [] (by simp [keysA])
  intro cd m h
  cases hp : m.participants with
  | none => simpa [champStep, hp] using h
  | some ps => simpa [champStep, hp] using champPs_nodup ps cd h

theorem champPs_wins_le :
    ∀ (ps : List (Option Participant)) (cd : List (String × ChampAcc)),
    (∀ kv ∈ cd, kv.2.wins ≤ kv.2.games) →
    ∀ kv ∈ champPs cd ps, kv.2.wins ≤ kv.2.games
  | [], _, h => h
  | none :: _, _, h => h
  | some p :: rest, cd, h => by
    simp only [champPs]
    split
    · exact champPs_wins_le rest cd h
    · refine champPs_wins_le rest _
        (@updateD_forall String ChampAcc _ (fun v => v.wins ≤ v.games)
          _ _ _ ?_ ?_ _ h)
      · intro v hv; simp only [accP]; split <;> omega
      · simp only [accP]; split <;> simp

theorem champData_wins_le (ms : List MatchRec) :
    ∀ kv ∈ champData ms, kv.2.wins ≤ kv.2.games := by
  refine @foldl_inv MatchRec _ (fun cd => ∀ kv ∈ cd, kv.2.wins ≤ kv.2.games)
    champStep ?_ ms [] (by simp)
  intro cd m h
  cases hp : m.participants with
  | none => simpa [champStep, hp] using h
  | some ps => simpa [champStep, hp] using champPs_wins_le ps cd h

theorem lookupA_champBase (c : String) (ms : List MatchRec) :
    lookupA c (champBase ms) =
      (lookupA c (champData ms)).bind
        (fun acc => if acc.games ≠ 0 then some (finalizeChamp acc) else none) := by
  unfold champBase
  rw [lookupA_map_val,
    lookupA_filter_val c (fun acc => decide (acc.games ≠ 0)) (champData_keys_nodup ms)]
  cases lookupA c (champData ms) with
  | none => rfl
  | some acc =>
    by_cases h : acc.games = 0 <;> simp [h]

theorem lookupA_agg (c : String) (ms : List MatchRec) :
    lookupA c (aggregate_champion_stats ms) =
      (lookupA c (champBase ms)).map
        (fun o => if 0 < totalPicks (champBase ms) then
          applyPick (totalPicks (champBase ms)) o else o) := by
  simp only [aggregate_champion_stats]
  by_cases h : 0 < totalPicks (champBase ms)
  · rw [if_pos h, lookupA_map_val]
    cases lookupA c (champBase ms) <;> simp [h]
  · rw [if_neg h]
    cases lookupA c (champBase ms) <;> simp [h]

theorem agg_lookup_spec {ms : List MatchRec} {c : String} {out : ChampOut}
    (h : lookupA c (aggregate_champion_stats ms) = some out) :
    ∃ acc, lookupA c (champData ms) = some acc ∧ acc.games ≠ 0 ∧
      out.games_played = acc.games ∧ out.wins = acc.wins ∧
      out.win_rate = roundTo 2 ((acc.wins : ℚ) / (acc.games : ℚ) * 100) ∧
      out.gold_efficiency =
        (if 0 < acc.total_gold then
          roundTo 2 ((acc.total_damage : ℚ) / (acc.total_gold : ℚ) * 1000)
         else 0) ∧
      out.primary_position = firstMax acc.positions := by
  rw [lookupA_agg, lookupA_champBase] at h
  cases hl : lookupA c (champData ms) with
  | none => rw [hl] at h; simp at h
  | some acc =>
    rw [hl] at h
    by_cases hg : acc.games = 0
    · simp [hg] at h
    · refine ⟨acc, rfl, hg, ?_⟩
      have h2 : (if 0 < totalPicks (champBase ms) then
          applyPick (totalPicks (champBase ms)) (finalizeChamp acc)
        else finalizeChamp acc) = out := by
        simpa [hg] using h
      subst h2
      split <;> simp [applyPick, finalizeChamp]

theorem abs_roundTo_two_sub (q : ℚ) : |roundTo 2 q - q| ≤ 1 / 200 := by
  have hr : |q * 100 - ((round (q * 100) : ℤ) : ℚ)| ≤ 1 / 2 := abs_sub_round (q * 100)
  have heq : roundTo 2 q - q = (((round (q * 100) : ℤ) : ℚ) - q * 100) / 100 := by
    unfold roundTo
    norm_num
    ring
  rw [heq, abs_div, abs_sub_comm]
  have h100 : |(100 : ℚ)| = 100 := by norm_num
  rw [h100]
  linarith

theorem sum_map_roundTo_near (l : List ℚ) :
    |(l.map (roundTo 2)).sum - l.sum| ≤ (l.length : ℚ) / 200 := by
  induction l with
  | nil => simp
  | cons q l ih =>
    simp only [List.map_cons, List.sum_cons, List.length_cons]
    have h1 := abs_roundTo_two_sub q
    calc |roundTo 2 q + (l.map (roundTo 2)).sum - (q + l.sum)|
        = |(roundTo 2 q - q) + ((l.map (roundTo 2)).sum - l.sum)| := by ring_nf
      _ ≤ |roundTo 2 q - q| + |(l.map (roundTo 2)).sum - l.sum| := abs_add _ _
      _ ≤ 1 / 200 + (l.length : ℚ) / 200 := add_le_add h1 ih
      _ = ((l.length : ℚ) + 1) / 200 := by ring
      _ = (((l.length : ℕ) + 1 : ℕ) : ℚ) / 200 := by push_cast; ring

theorem sum_map_div_total (T : ℚ) : ∀ l : List ℕ,
    (l.map (fun (g : ℕ) => (g : ℚ) / T * 100)).sum = (l.sum : ℚ) / T * 100
  | [] => by simp
  | g :: l => by
    simp only [List.map_cons, List.sum_cons]
    rw [sum_map_div_total T l]
    push_cast
    ring

theorem champBase_games_pos (ms : List MatchRec) :
    ∀ kv ∈ champBase ms, 0 < kv.2.games_played := by
  intro kv hkv
  simp only [champBase, List.mem_map] at hkv
  rcases hkv with ⟨kv2, hkv2, hkv⟩
  have hg := (List.mem_filter.1 hkv2).2
  simp only [ne_eq, decide_not, Bool.not_eq_eq_eq_not, decide_eq_true_eq] at hg
  subst hkv
  simp only [finalizeChamp]
  simp at hg
  omega

theorem totalPicks_pos {ms : List MatchRec} (h : champBase ms ≠ []) :
    0 < totalPicks (champBase ms) := by
  cases hb : champBase ms with
  | nil => exact absurd hb h
  | cons kv rest =>
    have hpos : 0 < kv.2.games_played :=
      champBase_games_pos ms kv (by rw [hb]; exact List.mem_cons_self _ _)
    simp only [totalPicks, hb, List.map_cons, List.sum_cons]
    omega

theorem symInv_bump (c1 c2 : String) (w : Bool) (md : MuMap) (h : SymInv md) :
    SymInv (bumpMu c1 c2 w md) := by
  intro A B hAB
  obtain ⟨hg, hw⟩ := h A B hAB
  have e1 : (if A = c1 ∧ B = c2 then (1 : ℕ) else 0)
      = (if B = c2 ∧ A = c1 then 1 else 0) := if_congr and_comm rfl rfl
  have e2 : (if A = c2 ∧ B = c1 then (1 : ℕ) else 0)
      = (if B = c1 ∧ A = c2 then 1 else 0) := if_congr and_comm rfl rfl
  constructor
  · show (md A B).1 + _ + _ = (md B A).1 + _ + _
    omega
  · show (md A B).2 + _ + _ + ((md B A).2 + _ + _) = (md A B).1 + _ + _
    cases w <;> simp only [Bool.true_eq_false, Bool.false_eq_true, false_and,
      true_and, if_false, if_true, add_zero, ite_false, ite_true] <;> omega

theorem symInv_tallyRole (tp : TeamPos × TeamPos) (pos : String) (md : MuMap)
    (h : SymInv md) : SymInv (tallyRole tp md pos) := by
  cases h1 : tp.1 pos with
  | none => simpa [tallyRole, h1] using h
  | some s1 =>
    cases h2 : tp.2 pos with
    | none => simpa [tallyRole, h1, h2] using h
    | some s2 => simpa [tallyRole, h1, h2] using symInv_bump _ _ _ _ h

theorem symInv_raw (ms : List MatchRec) : SymInv (rawMatchups ms) := by
  refine @foldl_inv MatchRec _ SymInv matchupStep ?_ ms _ ?_
  · intro md m h
    cases hp : m.participants with
    | none => simpa [matchupStep, hp] using h
    | some ps =>
      cases hb : buildTP (fun _ => none) (fun _ => none) ps with
      | none => simpa [matchupStep, hp, hb] using h
      | some tp =>
        simpa [matchupStep, hp, hb] using
          @foldl_inv String _ SymInv (tallyRole tp)
            (fun md2 pos h2 => symInv_tallyRole tp pos md2 h2) canonicalRoles md h
  · intro A B hAB
    exact ⟨rfl, rfl⟩

theorem bumpMu_diag (c1 c2 A : String) (w : Bool) (md : MuMap) :
    (bumpMu c1 c2 w md A A).1
        = (md A A).1 + 2 * (if c1 = A ∧ c2 = A then 1 else 0) ∧
    (bumpMu c1 c2 w md A A).2
        = (md A A).2 + (if c1 = A ∧ c2 = A then 1 else 0) := by
  have hiff1 : (A = c1 ∧ A = c2) ↔ (c1 = A ∧ c2 = A) :=
    ⟨fun x => ⟨x.1.symm, x.2.symm⟩, fun x => ⟨x.1.symm, x.2.symm⟩⟩
  have hiff2 : (A = c2 ∧ A = c1) ↔ (c1 = A ∧ c2 = A) :=
    ⟨fun x => ⟨x.2.symm, x.1.symm⟩, fun x => ⟨x.2.symm, x.1.symm⟩⟩
  have e1 : (if A = c1 ∧ A = c2 then (1 : ℕ) else 0)
      = (if c1 = A ∧ c2 = A then 1 else 0) := if_congr hiff1 rfl rfl
  have e2 : (if A = c2 ∧ A = c1 then (1 : ℕ) else 0)
      = (if c1 = A ∧ c2 = A then 1 else 0) := if_congr hiff2 rfl rfl
  constructor
  · show (md A A).1 + _ + _ = _
    omega
  · show (md A A).2 + _ + _ = _
    cases w <;> simp only [Bool.true_eq_false, Bool.false_eq_true, false_and,
      true_and, if_false, if_true, add_zero, ite_false, ite_true] <;> omega

theorem tallyRole_diag (tp : TeamPos × TeamPos) (A pos : String) (md : MuMap) :
    (tallyRole tp md pos A A).1 = (md A A).1 + 2 * mirrorRoleCount tp A pos ∧
    (tallyRole tp md pos A A).2 = (md A A).2 + mirrorRoleCount tp A pos := by
  cases h1 : tp.1 pos with
  | none => simp [tallyRole, mirrorRoleCount, h1]
  | some s1 =>
    cases h2 : tp.2 pos with
    | none => simp [tallyRole, mirrorRoleCount, h1, h2]
    | some s2 =>
      have hb := bumpMu_diag s1.champion s2.champion A s1.win md
      simp only [tallyRole, mirrorRoleCount, h1, h2]
      exact hb

theorem foldl_tally_diag (tp : TeamPos × TeamPos) (A : String) :
    ∀ (roles : List String) (md : MuMap),
    ((roles.foldl (tallyRole tp) md) A A).1
        = (md A A).1 + 2 * (roles.map (mirrorRoleCount tp A)).sum ∧
    ((roles.foldl (tallyRole tp) md) A A).2
        = (md A A).2 + (roles.map (mirrorRoleCount tp A)).sum
  | [], md => by simp
  | pos :: roles, md => by
    simp only [List.foldl_cons, List.map_cons, List.sum_cons]
    have h1 := tallyRole_diag tp A pos md
    have h2 := foldl_tally_diag tp A roles (tallyRole tp md pos)
    omega

theorem matchupStep_diag (m : MatchRec) (A : String) (md : MuMap) :
    (matchupStep md m A A).1 = (md A A).1 + 2 * mirrorMatchCount m A ∧
    (matchupStep md m A A).2 = (md A A).2 + mirrorMatchCount m A := by
  cases hp : m.participants with
  | none => simp [matchupStep, mirrorMatchCount, hp]
  | some ps =>
    cases hb : buildTP (fun _ => none) (fun _ => none) ps with
    | none => simp [matchupStep, mirrorMatchCount, hp, hb]
    | some tp =>
      have h := foldl_tally_diag tp A canonicalRoles md
      simp only [matchupStep, mirrorMatchCount, hp, hb]
      exact h

theorem raw_diag (A : String) : ∀ (ms : List MatchRec) (md : MuMap),
    ((ms.foldl matchupStep md) A A).1 = (md A A).1 + 2 * mirrorCount ms A ∧
    ((ms.foldl matchupStep md) A A).2 = (md A A).2 + mirrorCount ms A
  | [], md => by simp [mirrorCount]
  | m :: ms, md => by
    simp only [List.foldl_cons, mirrorCount, List.map_cons, List.sum_cons]
    have h1 := matchupStep_diag m A md
    have h2 := raw_diag A ms (matchupStep md m)
    simp only [mirrorCount] at h2
    omega

/-- C3 (counterexample): in the match `[Jinx, malformed, Vi]` the malformed
second entry aborts the participant loop of the whole match, so Vi — a
well-formed participant of the same match, after the malformed one — is
never accumulated, contradicting the claim that only the malformed
participant is skipped. -/
theorem malformed_aborts_match_cex :
    lookupA "Jinx" (aggregate_champion_stats [c3M]) ≠ none ∧
    lookupA "Vi" (aggregate_champion_stats [c3M]) = none := by
  constructor
  · decide
  · decide

/-- C3 (amended): a participant entry raising an error during extraction
causes the remaining participants of that match to be skipped (earlier
participants of the match keep their contributions), while every
subsequent match is still processed; the run is never aborted. -/
theorem malformed_skips_rest_of_match :
    (∀ (cd : List (String × ChampAcc)) (pre : List Participant)
       (rest : List (Option Participant)),
       champPs cd (pre.map some ++ none :: rest) = champPs cd (pre.map some)) ∧
    (∀ (ms1 ms2 : List MatchRec),
       champData (ms1 ++ ms2) = ms2.foldl champStep (champData ms1)) := by
  constructor
  · intro cd pre rest
    induction pre generalizing cd with
    | nil => rfl
    | cons p pre ih =>
      simp only [List.map_cons, List.cons_append, champPs]
      by_cases hc : p.champion.getD "Unknown" = "Unknown"
      · rw [if_pos hc, if_pos hc]
        exact ih _
      · rw [if_neg hc, if_neg hc]
        exact ih _
  · intro ms1 ms2
    simp [champData, List.foldl_append]

/-- C4 (counterexample): on the empty record sequence the Objective
Correlation reducer does not return an empty mapping — its output always
carries the four fixed objective keys (with zero counts). -/
theorem objective_empty_not_empty_cex :
    aggregate_objective_correlations [] ≠ [] := by
  decide

/-- C4 (amended): for the empty input sequence the Entity, Role, Build and
Matchup reducers return empty mappings, the Objective Correlation reducer
returns its fixed four-key table with `games = 0`, `wins = 0`,
`win_rate = 0` everywhere, and the Summary Composer applied to those
outputs with total match count 0 reports `champions_with_data = 0` and
`reliability_assessment = "Very Low"`. -/
theorem empty_input_results (now : String) :
    aggregate_champion_stats [] = [] ∧
    aggregate_role_meta [] = [] ∧
    aggregate_item_builds [] = [] ∧
    (∀ a b, aggregate_matchups [] a b = none) ∧
    aggregate_objective_correlations [] =
      [("first_blood", { wins := 0, games := 0, win_rate := 0 }),
       ("first_tower", { wins := 0, games := 0, win_rate := 0 }),
       ("first_dragon", { wins := 0, games := 0, win_rate := 0 }),
       ("first_baron", { wins := 0, games := 0, win_rate := 0 })] ∧
    (create_meta_summary (aggregate_champion_stats []) (aggregate_role_meta [])
        (aggregate_objective_correlations []) 0 now).champions_with_data = 0 ∧
    (create_meta_summary (aggregate_champion_stats []) (aggregate_role_meta [])
        (aggregate_objective_correlations []) 0 now).reliability_assessment =
      "Very Low" := by
  exact ⟨rfl, rfl, rfl, fun a b => rfl, rfl, rfl, rfl⟩

/-- C7 (counterexample): a participant whose role label is the sentinel
`"Invalid"` is tracked in the role counter of the entity reducer (the source
only tests truthiness, not the sentinel), and here `"Invalid"` even
becomes the primary role of the entity — contradicting the claim that the
sentinel is excluded from role tracking. -/
theorem invalid_role_tracked_cex :
    (lookupA "Shen" (aggregate_champion_stats c7Ms)).map
      (fun o => (o.games_played, o.primary_position)) = some (1, "Invalid") := by
  decide

/-- C7 (amended): in the entity reducer a participant with a missing or
empty effective role label is still counted toward games and wins but
excluded from role tracking; any non-empty label — including the sentinel
`"Invalid"` — is tracked like an ordinary role (and may become primary). -/
theorem role_tracking (acc : ChampAcc) (p : Participant) :
    (accP acc p).games = acc.games + 1 ∧
    (accP acc p).wins = acc.wins + (if p.win then 1 else 0) ∧
    (effPos p = "" → (accP acc p).positions = acc.positions) ∧
    (effPos p ≠ "" →
      (accP acc p).positions = updateD (effPos p) (· + 1) 0 acc.positions) := by
  refine ⟨rfl, rfl, ?_, ?_⟩ <;> intro h <;> simp [accP, h]

/-- C7 (witness): the amended statement at the concrete `"Invalid"`-role
participant: it is counted as a game and its sentinel role is tracked. -/
theorem role_tracking_witness :
    (accP {} c7P).games = 1 ∧
    (accP {} c7P).positions =
      updateD (effPos c7P) (· + 1) 0 ([] : List (String × ℕ)) :=
  ⟨(role_tracking {} c7P).1, (role_tracking {} c7P).2.2.2 (by decide)⟩

/-- C8: the build identity used by the Build Stats reducer is invariant
under permutation of the item list, so two participants of the same
entity whose item lists are reorderings of each other are counted toward
the same build entry of the nested build counter. -/
theorem build_perm_invariant (l1 l2 : List ℕ) (h : l1.Perm l2) :
    buildKey l1 = buildKey l2 ∧
    ∀ cnt : List (List ℕ × ℕ),
      updateD (buildKey l1) (· + 1) 0 cnt = updateD (buildKey l2) (· + 1) 0 cnt := by
  have hk : buildKey l1 = buildKey l2 := by
    unfold buildKey
    exact List.eq_of_perm_of_sorted
      (((List.perm_insertionSort _ l1).trans h).trans
        (List.perm_insertionSort _ l2).symm)
      (List.sorted_insertionSort _ l1)
      (List.sorted_insertionSort _ l2)
  exact ⟨hk, fun cnt => by rw [hk]⟩

/-- C8 (witness): the example lists `[3,1,2]` and `[1,2,3]` of the claim
share one build identity and bump the same counter entry. -/
theorem build_perm_witness :
    buildKey [3, 1, 2] = buildKey [1, 2, 3] ∧
    updateD (buildKey [3, 1, 2]) (· + 1) 0 ([] : List (List ℕ × ℕ)) =
      updateD (buildKey [1, 2, 3]) (· + 1) 0 ([] : List (List ℕ × ℕ)) :=
  ⟨(build_perm_invariant [3, 1, 2] [1, 2, 3] (by decide)).1,
   (build_perm_invariant [3, 1, 2] [1, 2, 3] (by decide)).2 []⟩

/-- C9 (counterexample): two invocations over the same (empty) record
sequence with different wall-clock times differ in the output of the
Summary Composer: `data_collection_date` records `datetime.now()`, so the composed
summaries are not identical across runs. -/
theorem run_timestamp_cex :
    runAggregation [] "15.20" "2025-10-11T00:00:00" ≠
      runAggregation [] "15.20" "2025-10-12T00:00:00" := by
  intro h
  have h2 : ("2025-10-11T00:00:00" : String) = "2025-10-12T00:00:00" :=
    congrArg (fun r => r.meta_summary.data_collection_date) h
  exact absurd h2 (by decide)

/-- C9 (amended): a run of the pipeline is a pure function of the input
record snapshot except for the `data_collection_date` field of the summary:
with that timestamp erased, two runs over the same records produce
identical outputs from every reducer and from the Summary Composer, with
no cross-invocation state. -/
theorem run_deterministic_up_to_timestamp (ms : List MatchRec)
    (patch t1 t2 : String) :
    eraseDate (runAggregation ms patch t1) =
      eraseDate (runAggregation ms patch t2) := rfl

/-- C1 (counterexample): the claim quantifies over all non-empty record
sets, but a non-empty record set whose only match carries no
`participants` key produces an empty entity output: the pick rates then
sum to 0, not 100, and the rounding epsilon for zero rounded values is 0. -/
theorem pick_rate_sum_cex :
    c1BadMs ≠ [] ∧
    ¬ (|((aggregate_champion_stats c1BadMs).map
          (fun kv => kv.2.pick_rate)).sum - 100|
        ≤ ((aggregate_champion_stats c1BadMs).length : ℚ) / 200) := by
  constructor
  · decide
  · have he : aggregate_champion_stats c1BadMs = [] := rfl
    rw [he]
    norm_num

/-- C1 (amended): whenever the output of the Entity Stats reducer is non-empty,
the pick rates across its entities — each `games_played / total_picks *
100` rounded to two digits, with `total_picks` the sum of `games_played`
over the output — sum to 100 up to the accumulated rounding epsilon of
half an ulp (1/200) per entity. -/
theorem pick_rate_sum (ms : List MatchRec)
    (h : aggregate_champion_stats ms ≠ []) :
    |((aggregate_champion_stats ms).map (fun kv => kv.2.pick_rate)).sum - 100|
      ≤ ((aggregate_champion_stats ms).length : ℚ) / 200 := by
  have hbase : champBase ms ≠ [] := by
    intro hb
    apply h
    simp [aggregate_champion_stats, hb, totalPicks]
  have hT : 0 < totalPicks (champBase ms) := totalPicks_pos hbase
  have hagg : aggregate_champion_stats ms =
      (champBase ms).map
        (fun kv => (kv.1, applyPick (totalPicks (champBase ms)) kv.2)) := by
    simp [aggregate_champion_stats, hT]
  rw [hagg]
  have hmap : (((champBase ms).map
        (fun kv => (kv.1, applyPick (totalPicks (champBase ms)) kv.2))).map
          (fun kv => kv.2.pick_rate))
      = (((champBase ms).map (fun kv => kv.2.games_played)).map
          (fun (g : ℕ) => (g : ℚ) / ((totalPicks (champBase ms) : ℕ) : ℚ) * 100)).map
            (roundTo 2) := by
    simp only [List.map_map]
    rfl
  rw [hmap]
  have hsum : (((champBase ms).map (fun kv => kv.2.games_played)).map
      (fun (g : ℕ) => (g : ℚ) / ((totalPicks (champBase ms) : ℕ) : ℚ) * 100)).sum
      = 100 := by
    rw [sum_map_div_total]
    have hTdef : ((champBase ms).map (fun kv => kv.2.games_played)).sum
        = totalPicks (champBase ms) := rfl
    rw [hTdef]
    have hne : ((totalPicks (champBase ms) : ℕ) : ℚ) ≠ 0 := by
      exact_mod_cast hT.ne'
    rw [div_self hne]
    norm_num
  have hnear := sum_map_roundTo_near (((champBase ms).map
    (fun kv => kv.2.games_played)).map
      (fun (g : ℕ) => (g : ℚ) / ((totalPicks (champBase ms) : ℕ) : ℚ) * 100))
  rw [hsum] at hnear
  simpa using hnear

/-- C1 (witness): the amended statement at a one-champion corpus, whose
single pick rate is 100. -/
theorem pick_rate_sum_witness :
    aggregate_champion_stats c1Ms ≠ [] ∧
    |((aggregate_champion_stats c1Ms).map (fun kv => kv.2.pick_rate)).sum - 100|
      ≤ ((aggregate_champion_stats c1Ms).length : ℚ) / 200 :=
  ⟨by decide, pick_rate_sum c1Ms (by decide)⟩

/-- C2: a matchup pair is present in the output of the Matchup Stats reducer
exactly when its observed game count reaches the fixed floor of 3, and
for distinct entities the two directed entries of a pair carry equal game
counts and complementary win counts. -/
theorem matchup_threshold_symmetry (ms : List MatchRec) (A B : String) :
    ((aggregate_matchups ms A B).isSome ↔ 3 ≤ (rawMatchups ms A B).1) ∧
    (A ≠ B → ∀ sAB sBA, aggregate_matchups ms A B = some sAB →
      aggregate_matchups ms B A = some sBA →
      sAB.games = sBA.games ∧ sAB.wins + sBA.wins = sAB.games) := by
  constructor
  · simp only [aggregate_matchups]
    split <;> rename_i h <;> simp [h]
  · intro hne sAB sBA hAB hBA
    have hsym := symInv_raw ms A B hne
    simp only [aggregate_matchups] at hAB hBA
    split at hAB
    · split at hBA
      · have e1 := Option.some.inj hAB
        have e2 := Option.some.inj hBA
        subst e1
        subst e2
        exact ⟨hsym.1, hsym.2⟩
      · exact Option.noConfusion hBA
    · exact Option.noConfusion hAB

/-- C2 (witness): a three-match Aatrox/Darius top-lane corpus: the pair
crosses the 3-game floor and its two directed entries are symmetric. -/
theorem matchup_threshold_symmetry_witness :
    ("Aatrox" : String) ≠ "Darius" ∧
    ∃ sAB sBA, aggregate_matchups c2Ms "Aatrox" "Darius" = some sAB ∧
      aggregate_matchups c2Ms "Darius" "Aatrox" = some sBA ∧
      sAB.games = sBA.games ∧ sAB.wins + sBA.wins = sAB.games := by
  refine ⟨by decide, ?_⟩
  obtain ⟨sAB, hAB⟩ : ∃ s, aggregate_matchups c2Ms "Aatrox" "Darius" = some s :=
    ⟨_, rfl⟩
  obtain ⟨sBA, hBA⟩ : ∃ s, aggregate_matchups c2Ms "Darius" "Aatrox" = some s :=
    ⟨_, rfl⟩
  exact ⟨sAB, sBA, hAB, hBA,
    (matchup_threshold_symmetry c2Ms "Aatrox" "Darius").2 (by decide) sAB sBA hAB hBA⟩

/-- C5: no zero-denominator division leaks out of the reducers: an
gold efficiency of an entity is the guarded 0 when its accumulated gold
is 0, the win rate of an objective is exactly 0 when its game count is 0, and every
sample-list average (the per-minute rates and KDA) is the guarded 0 on an
empty sample list — the embedded folds are total and never produce an
unguarded division. -/
theorem zero_denom_guards :
    (∀ (ms : List MatchRec) (c : String) (out : ChampOut) (acc : ChampAcc),
       lookupA c (aggregate_champion_stats ms) = some out →
       lookupA c (champData ms) = some acc → acc.total_gold = 0 →
       out.gold_efficiency = 0) ∧
    (∀ (ms : List MatchRec) (k : String) (o : ObjOut),
       lookupA k (aggregate_objective_correlations ms) = some o →
       o.games = 0 → o.win_rate = 0) ∧
    (avgQ [] = 0) ∧
    (∀ acc : ChampAcc,
       (acc.cs_per_min_samples = [] → (finalizeChamp acc).avg_cs_per_min = 0) ∧
       (acc.gold_per_min_samples = [] → (finalizeChamp acc).avg_gold_per_min = 0) ∧
       (acc.vision_per_min_samples = [] →
         (finalizeChamp acc).avg_vision_per_min = 0) ∧
       (acc.damage_per_min_samples = [] →
         (finalizeChamp acc).avg_damage_per_min = 0) ∧
       (acc.kda_samples = [] → (finalizeChamp acc).avg_kda = 0)) := by
  refine ⟨?_, ?_, rfl, ?_⟩
  · intro ms c out acc hout hacc hgold
    obtain ⟨acc2, hacc2, hg2, _, _, _, hge, _⟩ := agg_lookup_spec hout
    rw [hacc] at hacc2
    have : acc2 = acc := (Option.some.inj hacc2).symm
    subst this
    rw [hge, if_neg (by omega)]
  · intro ms k o hs hg
    simp only [aggregate_objective_correlations, lookupA] at hs
    split at hs
    · cases Option.some.inj hs; simp only [finalizeObj] at hg ⊢; simp [hg]
    · split at hs
      · cases Option.some.inj hs; simp only [finalizeObj] at hg ⊢; simp [hg]
      · split at hs
        · cases Option.some.inj hs; simp only [finalizeObj] at hg ⊢; simp [hg]
        · split at hs
          · cases Option.some.inj hs; simp only [finalizeObj] at hg ⊢; simp [hg]
          · exact Option.noConfusion hs
  · intro acc
    refine ⟨?_, ?_, ?_, ?_, ?_⟩ <;> intro h <;> simp [finalizeChamp, avgQ, h]

/-- C5 (witness): a zero-gold entity in the output with gold efficiency 0,
the zero-count objective table of the empty corpus with win rate 0, and
the empty sample-list average. -/
theorem zero_denom_guards_witness :
    (lookupA "Sona" (aggregate_champion_stats c5Ms) =
        some (applyPick (totalPicks (champBase c5Ms)) (finalizeChamp (accP {} c5P))) ∧
     (accP {} c5P).total_gold = 0 ∧
     (applyPick (totalPicks (champBase c5Ms))
        (finalizeChamp (accP {} c5P))).gold_efficiency = 0) ∧
    (lookupA "first_baron" (aggregate_objective_correlations []) =
        some (finalizeObj {}) ∧
     (finalizeObj {}).games = 0 ∧ (finalizeObj {}).win_rate = 0) ∧
    avgQ [] = 0 := by
  refine ⟨⟨rfl, rfl, ?_⟩, ⟨rfl, rfl, ?_⟩, zero_denom_guards.2.2.1⟩
  · exact zero_denom_guards.1 c5Ms "Sona" _ _ rfl rfl rfl
  · exact zero_denom_guards.2.1 [] "first_baron" _ rfl rfl

/-- C6: every entity of the output of the Entity Stats reducer satisfies
`wins ≤ games_played`, its win rate is exactly the two-digit rounding of
`wins / games_played * 100`, its game count equals the number of
participant records contributing to it across the corpus, and an entity
with no contributing record never appears in the output. -/
theorem entity_invariants (ms : List MatchRec) (c : String) (out : ChampOut)
    (h : lookupA c (aggregate_champion_stats ms) = some out) :
    out.wins ≤ out.games_played ∧
    out.win_rate = roundTo 2 ((out.wins : ℚ) / (out.games_played : ℚ) * 100) ∧
    out.games_played = contribCount ms c ∧
    1 ≤ contribCount ms c := by
  obtain ⟨acc, hacc, hg, hgp, hw, hwr, _, _⟩ := agg_lookup_spec h
  have hmem := mem_of_lookupA_eq_some hacc
  have hwl := champData_wins_le ms (c, acc) hmem
  have hcg : acc.games = contribCount ms c := by
    have hd := champData_games ms c
    rw [hacc] at hd
    simpa using hd
  refine ⟨?_, ?_, ?_, ?_⟩
  · rw [hgp, hw]; exact hwl
  · rw [hwr, hw, hgp]
  · rw [hgp, hcg]
  · omega

/-- C6 (witness): the invariants at a one-record corpus for champion Ahri. -/
theorem entity_invariants_witness :
    ∃ out, lookupA "Ahri" (aggregate_champion_stats c6Ms) = some out ∧
      (out.wins ≤ out.games_played ∧
       out.win_rate = roundTo 2 ((out.wins : ℚ) / (out.games_played : ℚ) * 100) ∧
       out.games_played = contribCount c6Ms "Ahri" ∧
       1 ≤ contribCount c6Ms "Ahri") := by
  obtain ⟨out, hout⟩ :
      ∃ o, lookupA "Ahri" (aggregate_champion_stats c6Ms) = some o := ⟨_, rfl⟩
  exact ⟨out, hout, entity_invariants c6Ms "Ahri" out hout⟩

/-- C10: for every corpus, the diagonal cell of the raw matchup counts for
an entity records exactly two game increments and one win increment per
mirror observation (same entity in the same canonical role on both
teams), so the wins of a diagonal output entry are always exactly half its
games. -/
theorem mirror_matchup_diag (ms : List MatchRec) (A : String) :
    (rawMatchups ms A A).1 = 2 * mirrorCount ms A ∧
    (rawMatchups ms A A).2 = mirrorCount ms A ∧
    (∀ s, aggregate_matchups ms A A = some s → s.games = 2 * s.wins) := by
  have h := raw_diag A ms (fun _ _ => (0, 0))
  have h1 : (rawMatchups ms A A).1 = 2 * mirrorCount ms A := by
    simpa [rawMatchups] using h.1
  have h2 : (rawMatchups ms A A).2 = mirrorCount ms A := by
    simpa [rawMatchups] using h.2
  refine ⟨h1, h2, ?_⟩
  intro s hs
  simp only [aggregate_matchups] at hs
  split at hs
  · cases Option.some.inj hs
    simp only
    omega
  · exact Option.noConfusion hs

/-- C10 (witness): three Sett-mirror top-lane matches: the diagonal entry
reaches the significance floor and shows wins equal to half the games. -/
theorem mirror_matchup_diag_witness :
    (rawMatchups c10Ms "Sett" "Sett").1 = 2 * mirrorCount c10Ms "Sett" ∧
    (rawMatchups c10Ms "Sett" "Sett").2 = mirrorCount c10Ms "Sett" ∧
    ∃ s, aggregate_matchups c10Ms "Sett" "Sett" = some s ∧ s.games = 2 * s.wins := by
  obtain ⟨s, hs⟩ : ∃ s, aggregate_matchups c10Ms "Sett" "Sett" = some s := ⟨_, rfl⟩
  exact ⟨(mirror_matchup_diag c10Ms "Sett").1,
    (mirror_matchup_diag c10Ms "Sett").2.1, s, hs,
    (mirror_matchup_diag c10Ms "Sett").2.2 s hs⟩

example :
    (lookupA "Ashe" (aggregate_champion_stats asheMs)).map
      (fun o => (o.games_played, o.wins, o.win_rate, o.pick_rate,
                 o.avg_cs_per_min, o.primary_position)) =
    some (2, 1, 50, 100, 8, "BOTTOM") := by
  simp [asheMs, asheP1, asheP2, aggregate_champion_stats, champBase,
    totalPicks, applyPick, champData, champStep, champPs, accP, finalizeChamp,
    firstMax, effPos, updateD, lookupA, avgQ, roundTo]
  norm_num [round_eq]
